import Mathlib

/-!
Shallow embedding of the room-coordination core of the quicksync repository.

Two variants of the core exist in the source and both are embedded here:

* the service-worker core (`src/public/sw.js`): module-level `Map`s
  `ROOMS` (roomId -> list of client ids), `USERS` (clientId -> user data),
  `ROOM_MESSAGES` (roomId -> message list) and `CLIENT_HEARTBEATS`
  (clientId -> last heartbeat time), mutated by the `message` event handler
  (`joinRoom`, `leaveRoom`, `message`, `shareDocument`, `endRoom`, `ping`,
  `heartbeat`) plus the 60-second inactive-client sweep;

* the socket.io serverless handlers (`src/api/socket.js`,
  `src/api/socket-handler.js`, `src/api/socket.io.js`): a module-level `rooms`
  map (roomId -> { users : Map keyed by socket.id, messages }), with the
  socket.io room-membership relation (`socket.join` / `socket.leave`)
  deciding broadcast recipients of `io.to(roomId).emit`.

The client-side message list logic of `src/src/contexts/SocketContext.jsx`
(duplicate-id suppression across the service-worker and the cross-browser
localStorage delivery paths) is embedded as pure list transformers.

JavaScript `Map`s are embedded as association lists `List (String × α)`
with `Map.get` / `Map.set` / `Map.delete` / `Map.has` as `mapGet` /
`mapSet` / `mapDelete` / `mapHas`; `Map.set` replaces the entry in place
when the key is present and appends otherwise, exactly as insertion-ordered
JavaScript maps do.  Wall-clock timestamps that the source never reads back
(`joinedAt`, `lastActive`, `lastSeen`, message `timestamp` strings) are not
modelled; `CLIENT_HEARTBEATS`, which the sweep does read, is modelled with
`Nat` milliseconds.
-/

/-- JavaScript `Map.get`, on an association list. -/
def mapGet {α : Type} (m : List (String × α)) (k : String) : Option α :=
  match m.find? (fun p => p.1 == k) with
  | some p => some p.2
  | none => none

/-- JavaScript `Map.get` with a default (`ROOMS.get(roomId) || []` pattern). -/
def mapGetD {α : Type} (m : List (String × α)) (k : String) (d : α) : α :=
  (mapGet m k).getD d

/-- JavaScript `Map.set`: replace in place if the key is present, else append. -/
def mapSet {α : Type} : List (String × α) → String → α → List (String × α)
  | [], k, v => [(k, v)]
  | p :: rest, k, v => if p.1 == k then (k, v) :: rest else p :: mapSet rest k v

/-- JavaScript `Map.delete`. -/
def mapDelete {α : Type} (m : List (String × α)) (k : String) : List (String × α) :=
  m.filter (fun p => p.1 != k)

/-- JavaScript `Map.has`. -/
def mapHas {α : Type} (m : List (String × α)) (k : String) : Bool :=
  m.any (fun p => p.1 == k)

/-- Number of elements of a list satisfying a Boolean predicate. -/
def countP {α : Type} (l : List α) (p : α → Bool) : Nat :=
  (l.filter p).length

/-! ## Client-side message list (src/src/contexts/SocketContext.jsx) -/

/-- Message object as the client stores it in the `messages` state: the fields
the duplicate-suppression logic reads (`id`, `userId`, `isEcho`) plus the text. -/
structure CMsg where
  id : String
  userId : String
  text : String
  isEcho : Bool
deriving Repr, DecidableEq

/-- Truthy-id duplicate test `currentMessages.some(existingMsg => existingMsg.id === id)`. -/
def hasMsgId (msgs : List CMsg) (i : String) : Bool :=
  msgs.any (fun x => x.id == i)

/-- Handler `swMessenger.on('message', ...)` of src/src/contexts/SocketContext.jsx
(lines 264–331): echo copies are dropped; a message from the client itself is
appended only when no entry with its id is present; a message from another
user is likewise appended only when its (truthy) id is not already present. -/
def clientOnSwMessage (selfId : String) (msgs : List CMsg) (m : CMsg) : List CMsg :=
  if m.isEcho then msgs
  else if m.userId == selfId then
    if m.id != "" && hasMsgId msgs m.id then msgs else msgs ++ [m]
  else
    if m.id != "" && hasMsgId msgs m.id then msgs else msgs ++ [m]

/-- Handler `handleCrossBrowserMessage` for `eventName === 'message'`
(src/src/contexts/SocketContext.jsx lines 104–123): messages whose
`userId` equals the local user are ignored; others are appended unless an
entry with the same (truthy) id is already present. -/
def clientOnCrossBrowser (selfId : String) (msgs : List CMsg) (m : CMsg) : List CMsg :=
  if m.userId != selfId then
    if m.id != "" && hasMsgId msgs m.id then msgs else msgs ++ [m]
  else msgs

/-- One redelivery of a message to the client, through either transport path:
the service-worker `postMessage` path or the cross-tab localStorage path. -/
inductive ClientDelivery where
  | sw (m : CMsg)
  | cross (m : CMsg)
deriving Repr, DecidableEq

/-- Apply one delivery to the client-visible message list. -/
def clientDeliver (selfId : String) (msgs : List CMsg) : ClientDelivery → List CMsg
  | ClientDelivery.sw m => clientOnSwMessage selfId msgs m
  | ClientDelivery.cross m => clientOnCrossBrowser selfId msgs m

/-- Number of entries of the client-visible message list carrying id `i`. -/
def countId (msgs : List CMsg) (i : String) : Nat :=
  countP msgs (fun x => x.id == i)

/-! ## Counting lemmas -/

theorem countP_append {α : Type} (l r : List α) (p : α → Bool) :
    countP (l ++ r) p = countP l p + countP r p := by
  simp [countP, List.filter_append]

theorem hasMsgId_true_iff (msgs : List CMsg) (i : String) :
    hasMsgId msgs i = true ↔ 0 < countId msgs i := by
  constructor
  · intro h
    rcases List.any_eq_true.mp h with ⟨x, hx, hxi⟩
    have hmem : x ∈ msgs.filter (fun x => x.id == i) := List.mem_filter.mpr ⟨hx, hxi⟩
    have hne : msgs.filter (fun x => x.id == i) ≠ [] := by
      intro hnil; rw [hnil] at hmem; cases hmem
    have := List.length_pos.mpr hne
    simpa [countId, countP] using this
  · intro h
    have hne : msgs.filter (fun x => x.id == i) ≠ [] := by
      intro hnil; simp [countId, countP, hnil] at h
    rcases List.exists_mem_of_ne_nil _ hne with ⟨x, hx⟩
    have hx2 := List.mem_filter.mp hx
    exact List.any_eq_true.mpr ⟨x, hx2.1, hx2.2⟩

theorem countId_append_single (msgs : List CMsg) (m : CMsg) (i : String) :
    countId (msgs ++ [m]) i = countId msgs i + (if m.id = i then 1 else 0) := by
  by_cases h : m.id = i <;> simp [countId, countP_append, countP, h]

theorem countId_dedupAppend (msgs : List CMsg) (m : CMsg) (i : String)
    (hi : i ≠ "") (h1 : countId msgs i = 1) :
    countId (if m.id != "" && hasMsgId msgs m.id then msgs else msgs ++ [m]) i = 1 := by
  by_cases hm : m.id = i
  · have hhas : hasMsgId msgs m.id = true := by
      rw [hm]; exact (hasMsgId_true_iff msgs i).mpr (by omega)
    have hne : (m.id != "") = true := by
      rw [hm]; simpa using hi
    simp [hhas, hne, h1]
  · by_cases hc : (m.id != "" && hasMsgId msgs m.id) = true
    · simp [hc, h1]
    · simp only [hc, if_false, Bool.not_eq_true] at *
      rw [if_neg (by simp [hc]), countId_append_single, if_neg hm, h1]

theorem countId_clientDeliver (selfId i : String) (hi : i ≠ "") (msgs : List CMsg)
    (h1 : countId msgs i = 1) (d : ClientDelivery) :
    countId (clientDeliver selfId msgs d) i = 1 := by
  cases d with
  | sw m =>
    simp only [clientDeliver, clientOnSwMessage]
    by_cases he : m.isEcho
    · simp [he, h1]
    · by_cases hu : (m.userId == selfId) = true
      · simp only [he, hu, if_false, if_true, Bool.false_eq_true]
        exact countId_dedupAppend msgs m i hi h1
      · simp only [he, hu, if_false, Bool.false_eq_true]
        exact countId_dedupAppend msgs m i hi h1
  | cross m =>
    simp only [clientDeliver, clientOnCrossBrowser]
    by_cases hu : (m.userId != selfId) = true
    · simp only [hu, if_true]
      exact countId_dedupAppend msgs m i hi h1
    · simp [hu, h1]

/-- C3: for every (nonempty) message id and receiving client, no matter how many
times deliveries with that id arrive through the service-worker path or the
cross-tab localStorage path, the client-visible message list keeps exactly one
entry with that id; and a first (non-echo) service-worker delivery of a message
with an id not yet rendered yields exactly one entry with that id. -/
theorem C3_exactly_once_per_id (selfId i : String) (msgs : List CMsg) (hi : i ≠ "") :
    (countId msgs i = 1 →
      ∀ ds : List ClientDelivery, countId (ds.foldl (clientDeliver selfId) msgs) i = 1) ∧
    (∀ m : CMsg, countId msgs i = 0 → m.id = i → m.isEcho = false →
      countId (clientOnSwMessage selfId msgs m) i = 1) := by
  constructor
  · intro h1 ds
    induction ds generalizing msgs with
    | nil => exact h1
    | cons d rest ih =>
      exact ih _ (countId_clientDeliver selfId i hi msgs h1 d)
  · intro m h0 hm he
    have hhas : hasMsgId msgs m.id = false := by
      rw [hm]
      by_contra hcon
      have : hasMsgId msgs i = true := by
        cases h : hasMsgId msgs i
        · exact absurd h hcon
        · rfl
      have := (hasMsgId_true_iff msgs i).mp this
      omega
    rw [hm] at hhas
    by_cases hu : (m.userId == selfId) = true <;>
      simp [clientOnSwMessage, he, hu, hhas, countId_append_single, hm, h0]

/-- Witness for C3 at a concrete input: a message with id "m1" already rendered
once survives a service-worker redelivery, a cross-browser redelivery and an
echo redelivery with its count still exactly 1. -/
theorem C3_exactly_once_per_id_witness :
    countId ([ClientDelivery.sw ⟨"m1", "u1", "hello", false⟩,
              ClientDelivery.cross ⟨"m1", "u1", "hello", false⟩,
              ClientDelivery.sw ⟨"m1", "u1", "hello", true⟩].foldl
        (clientDeliver "u2") [⟨"m1", "u1", "hello", false⟩]) "m1" = 1 :=
  (C3_exactly_once_per_id "u2" "m1" [⟨"m1", "u1", "hello", false⟩] (by decide)).1
    (by decide) _

/-! ## Socket.io serverless core (src/api/socket.js, src/api/socket-handler.js,
src/api/socket.io.js) -/

/-- Push a message and evict the oldest when the list would exceed 100:
`messages.push(m); if (messages.length > 100) messages.shift();`
(src/api/socket.js lines 88–92, src/api/socket-handler.js lines 140–145,
src/public/sw.js lines 322–326 and 371–375). -/
def pushCapped {α : Type} (ms : List α) (m : α) : List α :=
  let ms1 := ms ++ [m]
  if ms1.length > 100 then ms1.tail else ms1

/-- User entry stored in `room.users` (keyed by `socket.id`): the client-sent
user object spread together with the server-computed `isCreator` flag. -/
structure SIOUser where
  id : String
  name : String
  isCreator : Bool
deriving Repr, DecidableEq

/-- Message object relayed by the socket.io servers (client-constructed). -/
structure SIOMsg where
  id : String
  userId : String
  text : String
deriving Repr, DecidableEq

/-- One entry of the `rooms` map of src/api/socket.js:
`{ users: Map (socket.id -> user), messages: [] }`. -/
structure SIORoom where
  users : List (String × SIOUser)
  messages : List SIOMsg
deriving Repr, DecidableEq

/-- Events a socket.io handler emits. -/
inductive SIOEvent where
  | roomUsers (us : List SIOUser)
  | previousMessages (ms : List SIOMsg)
  | message (m : SIOMsg)
  | roomEnded
deriving Repr, DecidableEq

/-- Server state: the module-level `rooms` map plus the socket.io
room-membership relation (which sockets have `socket.join`ed which rooms),
which decides the recipients of `io.to(roomId).emit`. -/
structure SIOState where
  rooms : List (String × SIORoom)
  socketRooms : List (String × List String)
deriving Repr, DecidableEq

def sioInit : SIOState := { rooms := [], socketRooms := [] }

/-- Sockets that receive `io.to(roomId).emit(...)`: every socket that has
joined `roomId`. -/
def sioRoomSockets (s : SIOState) (roomId : String) : List String :=
  (s.socketRooms.filter (fun p => p.2.contains roomId)).map Prod.fst

/-- Handler `socket.on("joinRoom", ...)` of src/api/socket.js lines 59–79
(identical member/creator logic in src/api/socket-handler.js lines 83–122 and
src/api/socket.io.js): `socket.join(roomId)`; create the room if absent; store
the user under `socket.id` with `isCreator: room.users.size === 0`; emit
`roomUsers` to the room and `previousMessages` to the joiner. -/
def sioJoin (s : SIOState) (sid roomId uid uname : String) :
    SIOState × List (String × SIOEvent) :=
  let sr := mapGetD s.socketRooms sid []
  let sr1 := if sr.contains roomId then sr else sr ++ [roomId]
  let socketRooms1 := mapSet s.socketRooms sid sr1
  let rooms1 := if mapHas s.rooms roomId then s.rooms
                else mapSet s.rooms roomId { users := [], messages := [] }
  let room := mapGetD rooms1 roomId { users := [], messages := [] }
  let newUser : SIOUser := { id := uid, name := uname, isCreator := room.users.isEmpty }
  let room1 : SIORoom := { room with users := mapSet room.users sid newUser }
  let s1 : SIOState := { rooms := mapSet rooms1 roomId room1, socketRooms := socketRooms1 }
  (s1, (sioRoomSockets s1 roomId).map
         (fun c => (c, SIOEvent.roomUsers (room1.users.map Prod.snd)))
       ++ [(sid, SIOEvent.previousMessages room1.messages)])

/-- Handler `socket.on("message", ...)` of src/api/socket.js lines 82–97: the
room is the first room the socket joined; if it exists in the registry, push
the message with the 100-cap and emit `message` to the whole room (sender
included); otherwise do nothing at all. -/
def sioMessage (s : SIOState) (sid : String) (m : SIOMsg) :
    SIOState × List (String × SIOEvent) :=
  match mapGetD s.socketRooms sid [] with
  | [] => (s, [])
  | roomId :: _ =>
    match mapGet s.rooms roomId with
    | some room =>
      let room1 : SIORoom := { room with messages := pushCapped room.messages m }
      let s1 : SIOState := { s with rooms := mapSet s.rooms roomId room1 }
      (s1, (sioRoomSockets s1 roomId).map (fun c => (c, SIOEvent.message m)))
    | none => (s, [])

/-- Handler `socket.on("shareDocument", ...)` of src/api/socket.js lines
100–117: build `docMessage` with a `Shared document:` text and push it WITHOUT
the 100-message cap, then emit `message` to the whole room. -/
def sioShareDocument (s : SIOState) (sid : String) (d : SIOMsg) (docName : String) :
    SIOState × List (String × SIOEvent) :=
  match mapGetD s.socketRooms sid [] with
  | [] => (s, [])
  | roomId :: _ =>
    match mapGet s.rooms roomId with
    | some room =>
      let docMessage : SIOMsg := { d with text := "Shared document: " ++ docName }
      let room1 : SIORoom := { room with messages := room.messages ++ [docMessage] }
      let s1 : SIOState := { s with rooms := mapSet s.rooms roomId room1 }
      (s1, (sioRoomSockets s1 roomId).map (fun c => (c, SIOEvent.message docMessage)))
    | none => (s, [])

set_option linter.unusedVariables false in
/-- Handler `socket.on("endRoom", ...)` of src/api/socket.js lines 120–125 and
src/api/socket.io.js lines 116–122: if the room exists, emit `roomEnded` to
every socket in the room and delete the room — with no check of who asked
(`sid`, the calling socket, is deliberately unused, as in the source). -/
def sioEndRoom (s : SIOState) (sid roomId : String) :
    SIOState × List (String × SIOEvent) :=
  if mapHas s.rooms roomId then
    ({ s with rooms := mapDelete s.rooms roomId },
     (sioRoomSockets s roomId).map (fun c => (c, SIOEvent.roomEnded)))
  else (s, [])

/-- Handler `socket.on("leaveRoom", ...)` of src/api/socket.js lines 128–143:
remove the socket's user entry, `socket.leave(roomId)`, emit the remaining
users, and delete the room when its user map became empty. -/
def sioLeave (s : SIOState) (sid roomId : String) :
    SIOState × List (String × SIOEvent) :=
  match mapGet s.rooms roomId with
  | some room =>
    if mapHas room.users sid then
      let room1 : SIORoom := { room with users := mapDelete room.users sid }
      let socketRooms1 :=
        mapSet s.socketRooms sid ((mapGetD s.socketRooms sid []).filter (fun r => r != roomId))
      let sMid : SIOState := { rooms := mapSet s.rooms roomId room1, socketRooms := socketRooms1 }
      let outs := (sioRoomSockets sMid roomId).map
        (fun c => (c, SIOEvent.roomUsers (room1.users.map Prod.snd)))
      if room1.users.isEmpty then
        ({ sMid with rooms := mapDelete sMid.rooms roomId }, outs)
      else (sMid, outs)
    else (s, [])
  | none => (s, [])

/-- Registry part of the `disconnect` handler of src/api/socket.js lines
146–164: scan `rooms` in order, remove the socket's user entry from the first
room containing it, delete that room if it became empty, and stop (`break`).
Returns the new rooms list and, when a room was touched, its id and remaining
users. -/
def sioDisconnectRooms (sid : String) :
    List (String × SIORoom) → List (String × SIORoom) × Option (String × List SIOUser)
  | [] => ([], none)
  | (rId, room) :: rest =>
    if mapHas room.users sid then
      let room1 : SIORoom := { room with users := mapDelete room.users sid }
      (if room1.users.isEmpty then rest else (rId, room1) :: rest,
       some (rId, room1.users.map Prod.snd))
    else
      let step := sioDisconnectRooms sid rest
      ((rId, room) :: step.1, step.2)

/-- Handler `socket.on("disconnect", ...)` of src/api/socket.js lines 146–164
(src/api/socket-handler.js reaches the same cleanup through
`handleUserLeaving`): the disconnecting socket leaves all socket.io rooms, its
user entry is removed from the first registry room containing it, and an
emptied room is deleted. -/
def sioDisconnect (s : SIOState) (sid : String) : SIOState × List (String × SIOEvent) :=
  let socketRooms1 := mapDelete s.socketRooms sid
  let scan := sioDisconnectRooms sid s.rooms
  let s1 : SIOState := { rooms := scan.1, socketRooms := socketRooms1 }
  match scan.2 with
  | some (rId, remaining) =>
    (s1, (sioRoomSockets s1 rId).map (fun c => (c, SIOEvent.roomUsers remaining)))
  | none => (s1, [])

/-- One inbound socket.io event. -/
inductive SIOReq where
  | join (sid roomId uid uname : String)
  | leave (sid roomId : String)
  | msg (sid : String) (m : SIOMsg)
  | shareDoc (sid : String) (d : SIOMsg) (docName : String)
  | endRoom (sid roomId : String)
  | disconnect (sid : String)
deriving Repr, DecidableEq

/-- Dispatch one socket.io event. -/
def sioStep (s : SIOState) : SIOReq → SIOState × List (String × SIOEvent)
  | SIOReq.join sid roomId uid uname => sioJoin s sid roomId uid uname
  | SIOReq.leave sid roomId => sioLeave s sid roomId
  | SIOReq.msg sid m => sioMessage s sid m
  | SIOReq.shareDoc sid d docName => sioShareDocument s sid d docName
  | SIOReq.endRoom sid roomId => sioEndRoom s sid roomId
  | SIOReq.disconnect sid => sioDisconnect s sid

/-- Run a sequence of socket.io events, keeping only the state. -/
def sioRun (s : SIOState) (reqs : List SIOReq) : SIOState :=
  reqs.foldl (fun s r => (sioStep s r).1) s

/-! ## Association-list map lemmas -/

theorem mapGet_cons {α : Type} (p : String × α) (rest : List (String × α)) (k : String) :
    mapGet (p :: rest) k = if p.1 == k then some p.2 else mapGet rest k := by
  by_cases h : (p.1 == k) = true
  · simp [mapGet, List.find?_cons_of_pos, h]
  · simp only [Bool.not_eq_true] at h
    simp [mapGet, List.find?_cons_of_neg, h]

theorem mapHas_cons {α : Type} (p : String × α) (rest : List (String × α)) (k : String) :
    mapHas (p :: rest) k = (p.1 == k || mapHas rest k) := by
  simp [mapHas, List.any_cons]

theorem mapHas_eq_isSome {α : Type} (m : List (String × α)) (k : String) :
    mapHas m k = (mapGet m k).isSome := by
  induction m with
  | nil => rfl
  | cons p rest ih =>
    rw [mapHas_cons, mapGet_cons]
    by_cases h : (p.1 == k) = true <;> simp [h, ih]

theorem mapGet_mapSet_self {α : Type} (m : List (String × α)) (k : String) (v : α) :
    mapGet (mapSet m k v) k = some v := by
  induction m with
  | nil => simp [mapSet, mapGet_cons]
  | cons p rest ih =>
    by_cases h : (p.1 == k) = true
    · simp [mapSet, h, mapGet_cons]
    · simp [mapSet, h, mapGet_cons, ih]

theorem mapGet_mapSet_ne {α : Type} (m : List (String × α)) (k k2 : String) (v : α)
    (h : k ≠ k2) :
    mapGet (mapSet m k v) k2 = mapGet m k2 := by
  induction m with
  | nil => simp [mapSet, mapGet_cons, mapGet, h]
  | cons p rest ih =>
    by_cases hp : (p.1 == k) = true
    · have hp2 : (p.1 == k2) = false := by
        have := beq_iff_eq.mp hp
        simp [this, h]
      simp [mapSet, hp, mapGet_cons, hp2, beq_iff_eq, h]
    · simp [mapSet, hp, mapGet_cons, ih]

theorem mem_mapSet_self {α : Type} (m : List (String × α)) (k : String) (v : α) :
    (k, v) ∈ mapSet m k v := by
  induction m with
  | nil => simp [mapSet]
  | cons p rest ih =>
    by_cases h : (p.1 == k) = true <;> simp [mapSet, h, ih]

/-! ## C1, C2, C4, C6, C8, C9 on the socket.io core -/

/-- C1 counterexample: in src/api/socket.js members are keyed by `socket.id`,
so the same `userId` "u1" joining room "R" through two sockets (two tabs or
browsers) yields two member entries for "u1" in `room.users`. -/
theorem C1_counterexample :
    (mapGet (sioRun sioInit [SIOReq.join "s1" "R" "u1" "Alice",
        SIOReq.join "s2" "R" "u1" "Alice"]).rooms "R").map
      (fun room => countP room.users (fun p => p.2.id == "u1")) = some 2 := by decide

/-- C2 counterexample: "u1" is the first userId ever to join room "R" and gets
`isCreator = true`; after "u2" joins, "u1" leaves and rejoins, the rejoined
entry of "u1" has `isCreator = false` (src/api/socket.js line 73,
src/api/socket-handler.js line 104: `isCreator: room.users.size === 0`). -/
theorem C2_counterexample :
    ((mapGet (sioRun sioInit [SIOReq.join "s1" "R" "u1" "Alice"]).rooms "R").bind
        (fun room => mapGet room.users "s1")
      = some { id := "u1", name := "Alice", isCreator := true }) ∧
    ((mapGet (sioRun sioInit [SIOReq.join "s1" "R" "u1" "Alice",
        SIOReq.join "s2" "R" "u2" "Bob", SIOReq.leave "s1" "R",
        SIOReq.join "s1" "R" "u1" "Alice"]).rooms "R").bind
        (fun room => mapGet room.users "s1")
      = some { id := "u1", name := "Alice", isCreator := false }) := by decide

/-- C2 (amended): in the socket.io servers `isCreator` is recomputed at every
join as "the room's user map was empty at that moment": a join that creates
the room stores the user with `isCreator = true`, and a join into a room that
already has members — the returning original creator included — stores the
user with `isCreator = false`. -/
theorem C2_isCreator_recomputed_at_join (s : SIOState) (sid roomId uid uname : String) :
    (mapGet s.rooms roomId = none →
      ((mapGet ((sioJoin s sid roomId uid uname).1.rooms) roomId).bind
        (fun room1 => mapGet room1.users sid))
        = some { id := uid, name := uname, isCreator := true }) ∧
    (∀ room, mapGet s.rooms roomId = some room → room.users ≠ [] →
      ((mapGet ((sioJoin s sid roomId uid uname).1.rooms) roomId).bind
        (fun room1 => mapGet room1.users sid))
        = some { id := uid, name := uname, isCreator := false }) := by
  constructor
  · intro h
    have hhas : mapHas s.rooms roomId = false := by rw [mapHas_eq_isSome, h]; rfl
    simp [sioJoin, hhas, mapGetD, mapGet_mapSet_self, mapSet, mapGet_cons]
  · intro room h hne
    have hhas : mapHas s.rooms roomId = true := by rw [mapHas_eq_isSome, h]; rfl
    have hemp : room.users.isEmpty = false := by
      cases hu : room.users with
      | nil => exact absurd hu hne
      | cons a t => rfl
    simp [sioJoin, hhas, mapGetD, h, mapGet_mapSet_self, hemp]

/-- Witness for the amended C2 at concrete inputs: the first joiner of fresh
room "R" is stored with `isCreator = true`; a second user joining the nonempty
room is stored with `isCreator = false`. -/
theorem C2_isCreator_recomputed_at_join_witness :
    (((mapGet ((sioJoin sioInit "s1" "R" "u1" "Alice").1.rooms) "R").bind
        (fun room1 => mapGet room1.users "s1"))
      = some { id := "u1", name := "Alice", isCreator := true }) ∧
    (((mapGet ((sioJoin (sioJoin sioInit "s1" "R" "u1" "Alice").1
          "s2" "R" "u2" "Bob").1.rooms) "R").bind
        (fun room1 => mapGet room1.users "s2"))
      = some { id := "u2", name := "Bob", isCreator := false }) :=
  ⟨(C2_isCreator_recomputed_at_join sioInit "s1" "R" "u1" "Alice").1 rfl,
   (C2_isCreator_recomputed_at_join (sioJoin sioInit "s1" "R" "u1" "Alice").1
      "s2" "R" "u2" "Bob").2
    { users := [("s1", { id := "u1", name := "Alice", isCreator := true })], messages := [] }
    (by decide) (by decide)⟩

/-- C4: evaluation of the src/api/socket.js message handler at a concrete
input: with "u1" (socket "s1") and "u2" (socket "s2") in room "R", a message
sent by "s1" is emitted by `io.to(roomId)` to the sender "s1" and to "s2" as
the SAME untagged `message` event — the sender receives an untagged broadcast
copy and no echo-tagged copy exists in this handler's event vocabulary. -/
theorem C4_sender_gets_untagged_copy :
    (sioMessage (sioRun sioInit [SIOReq.join "s1" "R" "u1" "Alice",
        SIOReq.join "s2" "R" "u2" "Bob"]) "s1"
        { id := "m1", userId := "u1", text := "hello" }).2
      = [("s1", SIOEvent.message { id := "m1", userId := "u1", text := "hello" }),
         ("s2", SIOEvent.message { id := "m1", userId := "u1", text := "hello" })] := by
  decide

set_option maxRecDepth 40000 in
/-- C6 counterexample: in src/api/socket.js the 100-message FIFO cap is applied
by the `message` handler but NOT by the `shareDocument` handler; after 100 text
messages the history holds 100 entries, and one shared document pushes it to
101, exceeding the bound N = 100. -/
theorem C6_counterexample :
    (let s0 := sioRun sioInit [SIOReq.join "s1" "R" "u1" "Alice"]
     let s1 := sioRun s0 (List.replicate 100
        (SIOReq.msg "s1" { id := "m", userId := "u1", text := "x" }))
     let s2 := (sioShareDocument s1 "s1"
        { id := "d", userId := "u1", text := "" } "notes.txt").1
     ((mapGet s1.rooms "R").map (fun room => room.messages.length) = some 100 ∧
      (mapGet s2.rooms "R").map (fun room => room.messages.length) = some 101)) := by
  decide

/-- C8 counterexample: "u2" (socket "s2") is not the creator of room "R", yet
its `endRoom` succeeds: both sockets receive `roomEnded` and the room is
deleted (src/api/socket.js lines 120–125, src/api/socket.io.js lines 116–122:
no creator check). -/
theorem C8_counterexample :
    (let s := sioRun sioInit [SIOReq.join "s1" "R" "u1" "Alice",
        SIOReq.join "s2" "R" "u2" "Bob"]
     ((mapGet s.rooms "R").bind (fun room => mapGet room.users "s2")
        = some { id := "u2", name := "Bob", isCreator := false } ∧
      (sioEndRoom s "s2" "R").2 = [("s1", SIOEvent.roomEnded), ("s2", SIOEvent.roomEnded)] ∧
      mapGet (sioEndRoom s "s2" "R").1.rooms "R" = none)) := by decide

/-- C8 (amended): `endRoom` performs no creator check at all — its result does
not depend on which socket invoked it — and on an existing room it notifies
every socket in the room with `roomEnded` and deletes the room. -/
theorem C8_endRoom_any_caller (s : SIOState) (sid sid2 roomId : String) :
    sioEndRoom s sid roomId = sioEndRoom s sid2 roomId ∧
    (∀ room, mapGet s.rooms roomId = some room →
      (sioEndRoom s sid roomId).1.rooms = mapDelete s.rooms roomId ∧
      (sioEndRoom s sid roomId).2
        = (sioRoomSockets s roomId).map (fun c => (c, SIOEvent.roomEnded))) := by
  refine ⟨rfl, ?_⟩
  intro room h
  have hhas : mapHas s.rooms roomId = true := by rw [mapHas_eq_isSome, h]; rfl
  simp [sioEndRoom, hhas]

/-- Witness for the amended C8: with creator "u1" and non-creator "u2" in room
"R", a non-creator `endRoom` deletes the room and notifies both sockets. -/
theorem C8_endRoom_any_caller_witness :
    (let s := sioRun sioInit [SIOReq.join "s1" "R" "u1" "Alice",
        SIOReq.join "s2" "R" "u2" "Bob"]
     ((sioEndRoom s "s2" "R").1.rooms = mapDelete s.rooms "R" ∧
      (sioEndRoom s "s2" "R").2
        = (sioRoomSockets s "R").map (fun c => (c, SIOEvent.roomEnded)))) :=
  (C8_endRoom_any_caller
      (sioRun sioInit [SIOReq.join "s1" "R" "u1" "Alice", SIOReq.join "s2" "R" "u2" "Bob"])
      "s2" "s2" "R").2
    { users := [("s1", { id := "u1", name := "Alice", isCreator := true }),
                ("s2", { id := "u2", name := "Bob", isCreator := false })],
      messages := [] }
    (by decide)

/-- C9 counterexample: after room "R" is ended, socket "s1" (still joined to
the socket.io room) sends a late message; the handler finds the room missing
and does nothing at all — no event of any kind (in particular no error) is
delivered to the sender, and the registry is unchanged. -/
theorem C9_counterexample :
    (let s := sioRun sioInit [SIOReq.join "s1" "R" "u1" "Alice", SIOReq.endRoom "s1" "R"]
     sioMessage s "s1" { id := "m9", userId := "u1", text := "late" } = (s, [])) := by
  decide

/-! ## Service-worker core (src/public/sw.js) -/

/-- Entry of `USERS` (keyed by service-worker client id), src/public/sw.js
lines 214–220: `{ userId, name, roomId, joinedAt, isCreator }` (the `joinedAt`
timestamp is never read back and is not modelled). -/
structure SWUser where
  userId : String
  name : String
  roomId : String
  isCreator : Bool
deriving Repr, DecidableEq

/-- Message as stored in `ROOM_MESSAGES` and posted to clients; `isEcho` is the
flag the service worker sets on the copy confirmed back to the sender
(src/public/sw.js line 342).  The `id: data.id || generateUniqueId(...)`
fallback is modelled by taking the final id as given. -/
structure SWMsg where
  id : String
  userId : String
  text : String
  isEcho : Bool
deriving Repr, DecidableEq

/-- Presence entry `{ id: userId, name, isCreator }` broadcast as `roomUsers`. -/
structure SWRoomUser where
  id : String
  name : String
  isCreator : Bool
deriving Repr, DecidableEq

/-- Events the service worker posts to clients. -/
inductive SWEvent where
  | roomUsers (us : List SWRoomUser)
  | previousMessages (ms : List SWMsg)
  | message (m : SWMsg)
  | documentShared (m : SWMsg)
  | roomEnded (roomId : String)
  | pong
deriving Repr, DecidableEq

/-- The four module-level maps of src/public/sw.js: `ROOMS` (roomId -> client
ids), `USERS` (clientId -> user data), `ROOM_MESSAGES` (roomId -> messages)
and `CLIENT_HEARTBEATS` (clientId -> last heartbeat, ms). -/
structure SWState where
  rooms : List (String × List String)
  users : List (String × SWUser)
  roomMessages : List (String × List SWMsg)
  heartbeats : List (String × Nat)
deriving Repr, DecidableEq

def swInit : SWState := { rooms := [], users := [], roomMessages := [], heartbeats := [] }

/-- Condition `userData.userId === uid && userData.roomId === roomId` used by
the join dedup (sw.js lines 194–198), the leave still-in-room check and the
heartbeat `userInRoom` guard (lines 427–429), on a `USERS` entry. -/
def memberPred (roomId uid : String) : String × SWUser → Bool :=
  fun p => p.2.userId == uid && p.2.roomId == roomId

/-- Presence list for a room as computed by the joinRoom / heartbeat / sweep
handlers (no userId dedup): filter `USERS` values by roomId and project
`{id, name, isCreator}`. -/
def swRoomUsersOf (users : List (String × SWUser)) (roomId : String) : List SWRoomUser :=
  ((users.map Prod.snd).filter (fun u => u.roomId == roomId)).map
    (fun u => { id := u.userId, name := u.name, isCreator := u.isCreator })

/-- Presence list with the `processedUserIds` dedup used by the leaveRoom and
requestRoomUsers handlers (sw.js lines 278–288): one pass that keeps a `USERS`
value when it is in the room and its userId has not been accepted yet. -/
def swDedupRoomUsers : List SWUser → String → List String → List SWRoomUser
  | [], _, _ => []
  | u :: rest, roomId, processed =>
    if u.roomId == roomId && !(processed.contains u.userId) then
      { id := u.userId, name := u.name, isCreator := u.isCreator }
        :: swDedupRoomUsers rest roomId (processed ++ [u.userId])
    else swDedupRoomUsers rest roomId processed

/-- `broadcastToRoom(roomId, eventName, data, excludeClientId)` of
src/public/sw.js lines 59–100: post the event to every client listed for the
room except the excluded one (every listed client is assumed to be reachable
in `clients.matchAll`). -/
def swBroadcast (rooms : List (String × List String)) (roomId : String)
    (ev : SWEvent) (exclude : Option String) : List (String × SWEvent) :=
  ((mapGetD rooms roomId []).filter
      (fun c => match exclude with | some e => c != e | none => true)).map
    (fun c => (c, ev))

/-- `joinRoom` handler of src/public/sw.js lines 170–247: ensure the room (and
its message store) exists; add the client to the room's client list; if the
same `(userId, roomId)` already has a `USERS` entry, delete it and splice its
client out of the room list; store the new user data (with the CLIENT-SUPPLIED
creator flag `data.user.isRoomCreator || data.user.isCreator || false`);
broadcast `roomUsers`, and post `roomUsers` plus `previousMessages` to the
joiner. -/
def swJoin (s : SWState) (clientId roomId uid uname : String) (isCreatorFlag : Bool) :
    SWState × List (String × SWEvent) :=
  let rooms1 := if mapHas s.rooms roomId then s.rooms else mapSet s.rooms roomId []
  let rmsgs1 := if mapHas s.rooms roomId then s.roomMessages
    else if mapHas s.roomMessages roomId then s.roomMessages
    else mapSet s.roomMessages roomId []
  let rc0 := mapGetD rooms1 roomId []
  let rc1 := if rc0.contains clientId then rc0 else rc0 ++ [clientId]
  let existing := s.users.find? (memberPred roomId uid)
  let users1 := match existing with
    | some p => mapDelete s.users p.1
    | none => s.users
  let rc2 := match existing with
    | some p => rc1.erase p.1
    | none => rc1
  let newU : SWUser := { userId := uid, name := uname, roomId := roomId, isCreator := isCreatorFlag }
  let users2 := mapSet users1 clientId newU
  let rooms2 := mapSet rooms1 roomId rc2
  let s1 : SWState := { s with rooms := rooms2, users := users2, roomMessages := rmsgs1 }
  let ru := swRoomUsersOf users2 roomId
  (s1, swBroadcast rooms2 roomId (SWEvent.roomUsers ru) none
       ++ [(clientId, SWEvent.roomUsers ru),
           (clientId, SWEvent.previousMessages (mapGetD rmsgs1 roomId []))])

/-- `leaveRoom` handler of src/public/sw.js lines 248–294: drop the client from
the room's client list (deleting the room if no client remains), delete the
client's `USERS` entry, and if the room still exists broadcast the
deduplicated remaining user list. -/
def swLeave (s : SWState) (clientId roomId : String) : SWState × List (String × SWEvent) :=
  let rooms1 :=
    if mapHas s.rooms roomId then
      let updated := (mapGetD s.rooms roomId []).filter (fun c => c != clientId)
      if updated.length > 0 then mapSet s.rooms roomId updated
      else mapDelete s.rooms roomId
    else s.rooms
  let users1 := mapDelete s.users clientId
  let s1 : SWState := { s with rooms := rooms1, users := users1 }
  (s1, if mapHas rooms1 roomId then
      swBroadcast rooms1 roomId
        (SWEvent.roomUsers (swDedupRoomUsers (users1.map Prod.snd) roomId [])) none
    else [])

/-- `message` handler of src/public/sw.js lines 295–347: ensure the room entry
and the message store exist (a missing room is CREATED with an empty client
list), push the message with the 100-cap, broadcast `message` to the room
excluding the sender, and post an `isEcho`-tagged copy back to the sender. -/
def swMessage (s : SWState) (clientId roomId : String) (m : SWMsg) :
    SWState × List (String × SWEvent) :=
  let rooms1 := if mapHas s.rooms roomId then s.rooms else mapSet s.rooms roomId []
  let rmsgs1 := if mapHas s.roomMessages roomId then s.roomMessages
                else mapSet s.roomMessages roomId []
  let msgs1 := pushCapped (mapGetD rmsgs1 roomId []) m
  let rmsgs2 := mapSet rmsgs1 roomId msgs1
  let s1 : SWState := { s with rooms := rooms1, roomMessages := rmsgs2 }
  (s1, swBroadcast rooms1 roomId (SWEvent.message m) (some clientId)
       ++ [(clientId, SWEvent.message { m with isEcho := true })])

/-- `shareDocument` handler of src/public/sw.js lines 348–392: like `message`
(including the 100-cap) but with the `documentShared` event and without
touching `ROOMS`. -/
def swShareDocument (s : SWState) (clientId roomId : String) (d : SWMsg) :
    SWState × List (String × SWEvent) :=
  let rmsgs1 := if mapHas s.roomMessages roomId then s.roomMessages
                else mapSet s.roomMessages roomId []
  let msgs1 := pushCapped (mapGetD rmsgs1 roomId []) d
  let rmsgs2 := mapSet rmsgs1 roomId msgs1
  let s1 : SWState := { s with roomMessages := rmsgs2 }
  (s1, swBroadcast s.rooms roomId (SWEvent.documentShared d) (some clientId)
       ++ [(clientId, SWEvent.documentShared { d with isEcho := true })])

/-- `endRoom` handler of src/public/sw.js lines 394–408: if the room exists,
broadcast `roomEnded`, delete every `USERS` entry of the room and delete the
room — `ROOM_MESSAGES` is NOT touched, and no creator check is made. -/
def swEndRoom (s : SWState) (roomId : String) : SWState × List (String × SWEvent) :=
  if mapHas s.rooms roomId then
    ({ s with rooms := mapDelete s.rooms roomId,
              users := s.users.filter (fun p => p.2.roomId != roomId) },
     swBroadcast s.rooms roomId (SWEvent.roomEnded roomId) none)
  else (s, [])

/-- `ping` handler of src/public/sw.js lines 409–418. -/
def swPing (s : SWState) (clientId : String) (now : Nat) :
    SWState × List (String × SWEvent) :=
  ({ s with heartbeats := mapSet s.heartbeats clientId now }, [(clientId, SWEvent.pong)])

/-- Payload of a detailed heartbeat (src/src/contexts/SocketContext.jsx lines
46–52 sends `{userId, name, roomId, isCreator, rejoin: true}`). -/
structure SWHbData where
  userId : String
  name : String
  roomId : String
  isCreator : Bool
  rejoin : Bool
deriving Repr, DecidableEq

/-- `heartbeat` handler of src/public/sw.js lines 420–459: refresh the
heartbeat time; when user data is supplied and no `USERS` entry for that
`(userId, roomId)` exists and `rejoin` is set, re-add the client to the room,
store the user data and broadcast the room's users. -/
def swHeartbeat (s : SWState) (clientId : String) (now : Nat) (hb : Option SWHbData) :
    SWState × List (String × SWEvent) :=
  let s0 : SWState := { s with heartbeats := mapSet s.heartbeats clientId now }
  match hb with
  | none => (s0, [])
  | some d =>
    let userInRoom := s0.users.any (memberPred d.roomId d.userId)
    if !userInRoom && d.rejoin then
      let rooms1 := if mapHas s0.rooms d.roomId then s0.rooms
                    else mapSet s0.rooms d.roomId []
      let rc := mapGetD rooms1 d.roomId []
      let rooms2 := if rc.contains clientId then rooms1
                    else mapSet rooms1 d.roomId (rc ++ [clientId])
      let newU : SWUser := { userId := d.userId, name := d.name,
                             roomId := d.roomId, isCreator := d.isCreator }
      let users1 := mapSet s0.users clientId newU
      let s1 : SWState := { s0 with rooms := rooms2, users := users1 }
      (s1, swBroadcast rooms2 d.roomId
            (SWEvent.roomUsers (swRoomUsersOf users1 d.roomId)) none)
    else (s0, [])

/-- Per-client body of the inactive-client sweep (src/public/sw.js lines
128–153): delete the heartbeat entry; if the client has user data, filter it
out of its room's client list, broadcast the room's users (computed BEFORE
the `USERS` delete, as the source does) and delete the user data. -/
def swSweepClient (acc : SWState × List (String × SWEvent)) (clientId : String) :
    SWState × List (String × SWEvent) :=
  let s := acc.1
  let s0 : SWState := { s with heartbeats := mapDelete s.heartbeats clientId }
  match mapGet s0.users clientId with
  | none => (s0, acc.2)
  | some ud =>
    if mapHas s0.rooms ud.roomId then
      let rooms1 := mapSet s0.rooms ud.roomId
        ((mapGetD s0.rooms ud.roomId []).filter (fun c => c != clientId))
      let outs := swBroadcast rooms1 ud.roomId
        (SWEvent.roomUsers (swRoomUsersOf s0.users ud.roomId)) none
      ({ s0 with rooms := rooms1, users := mapDelete s0.users clientId }, acc.2 ++ outs)
    else
      ({ s0 with users := mapDelete s0.users clientId }, acc.2)

/-- The 60-second sweep of src/public/sw.js lines 109–162: a client is
inactive when its last heartbeat is older than 3 minutes or it is no longer in
`clients.matchAll` (the `active` list); each inactive client is cleaned up,
then every room whose client list is empty is deleted. -/
def swSweep (s : SWState) (now : Nat) (active : List String) :
    SWState × List (String × SWEvent) :=
  let inactive := (s.heartbeats.filter
      (fun p => now - p.2 > 180000 || !(active.contains p.1))).map Prod.fst
  let res := inactive.foldl swSweepClient (s, [])
  ({ res.1 with rooms := res.1.rooms.filter (fun p => !p.2.isEmpty) }, res.2)

/-- One inbound service-worker event (the `endRoom` client id is carried but,
as in the source, unused). -/
inductive SWReq where
  | join (clientId roomId uid uname : String) (isCreatorFlag : Bool)
  | leave (clientId roomId : String)
  | msg (clientId roomId : String) (m : SWMsg)
  | shareDoc (clientId roomId : String) (d : SWMsg)
  | endRoom (clientId roomId : String)
  | ping (clientId : String) (now : Nat)
  | heartbeat (clientId : String) (now : Nat) (hb : Option SWHbData)
  | sweep (now : Nat) (active : List String)
deriving Repr, DecidableEq

/-- Dispatch one service-worker event (the `message` listener switch of
src/public/sw.js lines 165–500 plus the sweep timer). -/
def swStep (s : SWState) : SWReq → SWState × List (String × SWEvent)
  | SWReq.join c r uid uname f => swJoin s c r uid uname f
  | SWReq.leave c r => swLeave s c r
  | SWReq.msg c r m => swMessage s c r m
  | SWReq.shareDoc c r d => swShareDocument s c r d
  | SWReq.endRoom _ r => swEndRoom s r
  | SWReq.ping c now => swPing s c now
  | SWReq.heartbeat c now hb => swHeartbeat s c now hb
  | SWReq.sweep now active => swSweep s now active

/-- Run a sequence of service-worker events, keeping only the state. -/
def swRun (s : SWState) (reqs : List SWReq) : SWState :=
  reqs.foldl (fun s r => (swStep s r).1) s

/-- The no-duplicate-membership invariant of the service-worker core: at most
one `USERS` entry per `(userId, roomId)`. -/
def swInv (s : SWState) : Prop :=
  ∀ roomId uid, countP s.users (memberPred roomId uid) ≤ 1

/-! ## More counting lemmas -/

theorem countP_cons {α : Type} (a : α) (l : List α) (p : α → Bool) :
    countP (a :: l) p = countP l p + (if p a then 1 else 0) := by
  by_cases h : p a = true <;> simp [countP, List.filter_cons, h]

theorem countP_mapSet_le {α : Type} (m : List (String × α)) (k : String) (v : α)
    (p : String × α → Bool) :
    countP (mapSet m k v) p ≤ countP m p + (if p (k, v) then 1 else 0) := by
  induction m with
  | nil =>
    simp only [mapSet, countP_cons]
    have : countP ([] : List (String × α)) p = 0 := rfl
    omega
  | cons q rest ih =>
    by_cases h : (q.1 == k) = true
    · simp only [mapSet, h, if_true, countP_cons]
      have hle : countP rest p ≤ countP rest p + (if p q then 1 else 0) := Nat.le_add_right _ _
      omega
    · simp only [mapSet, h, if_false, Bool.false_eq_true, countP_cons]
      omega

theorem countP_pos_of_mem {α : Type} (l : List α) (p : α → Bool) (a : α)
    (hmem : a ∈ l) (hpa : p a = true) : 1 ≤ countP l p := by
  have hmf : a ∈ l.filter p := List.mem_filter.mpr ⟨hmem, hpa⟩
  have hne : l.filter p ≠ [] := by intro hnil; rw [hnil] at hmf; cases hmf
  have := List.length_pos.mpr hne
  simpa [countP] using this

theorem countP_split {α : Type} (l : List α) (p c : α → Bool) :
    countP l p = countP l (fun x => p x && c x) + countP l (fun x => p x && !(c x)) := by
  induction l with
  | nil => rfl
  | cons a t ih =>
    by_cases hp : p a = true <;> by_cases hc : c a = true <;>
      simp [countP_cons, hp, hc, ih] <;> omega

theorem countP_filter_eq {α : Type} (l : List α) (c p : α → Bool) :
    countP (l.filter c) p = countP l (fun x => p x && c x) := by
  induction l with
  | nil => rfl
  | cons a t ih =>
    by_cases hp : p a = true <;> by_cases hc : c a = true <;>
      simp [List.filter_cons, countP_cons, hp, hc, ih]

theorem countP_and_le {α : Type} (l : List α) (p c : α → Bool) :
    countP l (fun x => p x && c x) ≤ countP l p := by
  induction l with
  | nil => exact Nat.le_refl 0
  | cons a t ih =>
    by_cases hp : p a = true <;> by_cases hc : c a = true <;>
      simp [countP_cons, hp, hc] <;> omega

theorem countP_mapDelete_le {α : Type} (l : List (String × α)) (k : String)
    (p : String × α → Bool) :
    countP (mapDelete l k) p ≤ countP l p := by
  rw [mapDelete, countP_filter_eq]
  exact countP_and_le l p _

theorem countP_eq_zero {α : Type} (l : List α) (p : α → Bool)
    (h : ∀ a ∈ l, p a = false) : countP l p = 0 := by
  induction l with
  | nil => rfl
  | cons a t ih =>
    have ha := h a (List.mem_cons_self a t)
    simp [countP_cons, ha, ih (fun x hx => h x (List.mem_cons_of_mem a hx))]

theorem countP_mapDelete_found {α : Type} (l : List (String × α)) (p : String × α → Bool)
    (a : String × α) (hfind : l.find? p = some a) (hle : countP l p ≤ 1) :
    countP (mapDelete l a.1) p = 0 := by
  have hmem : a ∈ l := List.mem_of_find?_eq_some hfind
  have hpa : p a = true := List.find?_some hfind
  have hpos : 1 ≤ countP l (fun x => p x && (x.1 == a.1)) := by
    refine countP_pos_of_mem l _ a hmem ?_
    simp [hpa]
  have hsplit := countP_split l p (fun x => x.1 == a.1)
  have hz : countP l (fun x => p x && !(x.1 == a.1)) = 0 := by omega
  have heq : countP (mapDelete l a.1) p = countP l (fun x => p x && (x.1 != a.1)) := by
    rw [mapDelete, countP_filter_eq]
  rw [heq]
  have : (fun x : String × α => p x && (x.1 != a.1))
       = (fun x : String × α => p x && !(x.1 == a.1)) := rfl
  rw [this, hz]

theorem countP_find?_none {α : Type} (l : List α) (p : α → Bool)
    (h : l.find? p = none) : countP l p = 0 := by
  refine countP_eq_zero l p (fun a ha => ?_)
  have := List.find?_eq_none.mp h a ha
  cases hpa : p a
  · rfl
  · exact absurd hpa this

theorem mapGet_mapDelete_self {α : Type} (m : List (String × α)) (k : String) :
    mapGet (mapDelete m k) k = none := by
  induction m with
  | nil => rfl
  | cons p rest ih =>
    by_cases h : (p.1 == k) = true
    · have hb : (p.1 != k) = false := by simp [bne, h]
      simpa [mapDelete, List.filter_cons, hb] using ih
    · have hb : (p.1 != k) = true := by simp [bne, h]
      simpa [mapDelete, List.filter_cons, hb, mapGet_cons, h] using ih

theorem mapGet_filter_prop {α : Type} (l : List (String × α)) (c : String × α → Bool)
    (k : String) (v : α) (h : mapGet (l.filter c) k = some v) :
    ∃ k2, c (k2, v) = true := by
  unfold mapGet at h
  cases hf : (l.filter c).find? (fun p => p.1 == k) with
  | none => rw [hf] at h; cases h
  | some a =>
    rw [hf] at h
    have hv : v = a.2 := by cases h; rfl
    have hmem := List.mem_of_find?_eq_some hf
    have hc : c a = true := List.mem_filter.mp (by simpa [mapDelete] using hmem) |>.2
    exact ⟨a.1, by rw [hv]; simpa using hc⟩

/-! ## Preservation of the no-duplicate-membership invariant -/

theorem swJoin_users_eq (s : SWState) (c r uid uname : String) (f : Bool) :
    (swJoin s c r uid uname f).1.users
      = mapSet (match s.users.find? (memberPred r uid) with
                | some p => mapDelete s.users p.1
                | none => s.users) c
          { userId := uid, name := uname, roomId := r, isCreator := f } := rfl

theorem swInv_join (s : SWState) (c r uid uname : String) (f : Bool) (h : swInv s) :
    swInv (swJoin s c r uid uname f).1 := by
  intro r0 u0
  by_cases hmatch : memberPred r0 u0
      (c, { userId := uid, name := uname, roomId := r, isCreator := f }) = true
  · have hand := hmatch
    simp only [memberPred, Bool.and_eq_true, beq_iff_eq] at hand
    obtain ⟨hu, hr⟩ := hand
    subst hu
    subst hr
    cases hfind : s.users.find? (memberPred r uid) with
    | none =>
      have husers : (swJoin s c r uid uname f).1.users
          = mapSet s.users c { userId := uid, name := uname, roomId := r, isCreator := f } := by
        rw [swJoin_users_eq, hfind]
      rw [husers]
      have h1 := countP_mapSet_le s.users c
        { userId := uid, name := uname, roomId := r, isCreator := f } (memberPred r uid)
      have hz := countP_find?_none s.users (memberPred r uid) hfind
      rw [if_pos hmatch] at h1
      omega
    | some a =>
      have husers : (swJoin s c r uid uname f).1.users
          = mapSet (mapDelete s.users a.1) c
              { userId := uid, name := uname, roomId := r, isCreator := f } := by
        rw [swJoin_users_eq, hfind]
      rw [husers]
      have hz := countP_mapDelete_found s.users (memberPred r uid) a hfind (h r uid)
      have h1 := countP_mapSet_le (mapDelete s.users a.1) c
        { userId := uid, name := uname, roomId := r, isCreator := f } (memberPred r uid)
      rw [if_pos hmatch, hz] at h1
      omega
  · have hnot : memberPred r0 u0
        (c, { userId := uid, name := uname, roomId := r, isCreator := f }) = false := by
      cases hx : memberPred r0 u0
          (c, { userId := uid, name := uname, roomId := r, isCreator := f })
      · rfl
      · exact absurd hx hmatch
    cases hfind : s.users.find? (memberPred r uid) with
    | none =>
      have husers : (swJoin s c r uid uname f).1.users
          = mapSet s.users c { userId := uid, name := uname, roomId := r, isCreator := f } := by
        rw [swJoin_users_eq, hfind]
      rw [husers]
      have h1 := countP_mapSet_le s.users c
        { userId := uid, name := uname, roomId := r, isCreator := f } (memberPred r0 u0)
      rw [hnot] at h1
      simp only [Bool.false_eq_true, if_false] at h1
      exact le_trans (by omega) (h r0 u0)
    | some a =>
      have husers : (swJoin s c r uid uname f).1.users
          = mapSet (mapDelete s.users a.1) c
              { userId := uid, name := uname, roomId := r, isCreator := f } := by
        rw [swJoin_users_eq, hfind]
      rw [husers]
      have h1 := countP_mapSet_le (mapDelete s.users a.1) c
        { userId := uid, name := uname, roomId := r, isCreator := f } (memberPred r0 u0)
      rw [hnot] at h1
      simp only [Bool.false_eq_true, if_false] at h1
      have h2 := countP_mapDelete_le s.users a.1 (memberPred r0 u0)
      exact le_trans (by omega) (h r0 u0)

theorem swInv_leave (s : SWState) (c r : String) (h : swInv s) :
    swInv (swLeave s c r).1 := by
  intro r0 u0
  have husers : (swLeave s c r).1.users = mapDelete s.users c := rfl
  rw [husers]
  exact le_trans (countP_mapDelete_le _ _ _) (h r0 u0)

theorem swInv_endRoom (s : SWState) (r : String) (h : swInv s) :
    swInv (swEndRoom s r).1 := by
  intro r0 u0
  by_cases hhas : mapHas s.rooms r = true
  · have husers : (swEndRoom s r).1.users = s.users.filter (fun p => p.2.roomId != r) := by
      simp [swEndRoom, hhas]
    rw [husers, countP_filter_eq]
    exact le_trans (countP_and_le _ _ _) (h r0 u0)
  · have hh : mapHas s.rooms r = false := by
      cases hx : mapHas s.rooms r
      · rfl
      · exact absurd hx hhas
    have husers : (swEndRoom s r).1.users = s.users := by
      simp [swEndRoom, hh]
    rw [husers]
    exact h r0 u0

theorem swInv_heartbeat (s : SWState) (c : String) (now : Nat) (hb : Option SWHbData)
    (h : swInv s) : swInv (swHeartbeat s c now hb).1 := by
  cases hb with
  | none => exact fun r0 u0 => h r0 u0
  | some d =>
    by_cases hg : (!(s.users.any (memberPred d.roomId d.userId)) && d.rejoin) = true
    · intro r0 u0
      have husers : (swHeartbeat s c now (some d)).1.users
          = mapSet s.users c { userId := d.userId, name := d.name,
                               roomId := d.roomId, isCreator := d.isCreator } := by
        simp only [swHeartbeat, hg, if_true]
      rw [husers]
      by_cases hmatch : memberPred r0 u0
          (c, { userId := d.userId, name := d.name,
                roomId := d.roomId, isCreator := d.isCreator }) = true
      · have hand := hmatch
        simp only [memberPred, Bool.and_eq_true, beq_iff_eq] at hand
        obtain ⟨hu, hr⟩ := hand
        subst hu
        subst hr
        have hany : s.users.any (memberPred d.roomId d.userId) = false := by
          have := (Bool.and_eq_true _ _).mp hg
          have hnn := this.1
          cases hx : s.users.any (memberPred d.roomId d.userId)
          · rfl
          · rw [hx] at hnn; cases hnn
        have hz : countP s.users (memberPred d.roomId d.userId) = 0 := by
          refine countP_eq_zero _ _ (fun a ha => ?_)
          have := List.any_eq_false.mp hany a ha
          cases hpa : memberPred d.roomId d.userId a
          · rfl
          · exact absurd hpa this
        have h1 := countP_mapSet_le s.users c
          { userId := d.userId, name := d.name,
            roomId := d.roomId, isCreator := d.isCreator } (memberPred d.roomId d.userId)
        rw [if_pos hmatch, hz] at h1
        omega
      · have hnot : memberPred r0 u0
            (c, { userId := d.userId, name := d.name,
                  roomId := d.roomId, isCreator := d.isCreator }) = false := by
          cases hx : memberPred r0 u0
              (c, { userId := d.userId, name := d.name,
                    roomId := d.roomId, isCreator := d.isCreator })
          · rfl
          · exact absurd hx hmatch
        have h1 := countP_mapSet_le s.users c
          { userId := d.userId, name := d.name,
            roomId := d.roomId, isCreator := d.isCreator } (memberPred r0 u0)
        rw [hnot] at h1
        simp only [Bool.false_eq_true, if_false] at h1
        exact le_trans (by omega) (h r0 u0)
    · intro r0 u0
      have hgf : (!(s.users.any (memberPred d.roomId d.userId)) && d.rejoin) = false := by
        cases hx : (!(s.users.any (memberPred d.roomId d.userId)) && d.rejoin)
        · rfl
        · exact absurd hx hg
      have husers : (swHeartbeat s c now (some d)).1.users = s.users := by
        simp only [swHeartbeat, hgf, Bool.false_eq_true, if_false]
      rw [husers]
      exact h r0 u0

theorem swSweepClient_users_le (acc : SWState × List (String × SWEvent)) (c : String)
    (p : String × SWUser → Bool) :
    countP (swSweepClient acc c).1.users p ≤ countP acc.1.users p := by
  simp only [swSweepClient]
  split
  · exact Nat.le_refl _
  · split
    · exact countP_mapDelete_le _ _ _
    · exact countP_mapDelete_le _ _ _

theorem swSweep_foldl_le (cs : List String) (acc : SWState × List (String × SWEvent))
    (p : String × SWUser → Bool) :
    countP (cs.foldl swSweepClient acc).1.users p ≤ countP acc.1.users p := by
  induction cs generalizing acc with
  | nil => exact Nat.le_refl _
  | cons c rest ih =>
    exact le_trans (ih (swSweepClient acc c)) (swSweepClient_users_le acc c p)

theorem swInv_sweep (s : SWState) (now : Nat) (active : List String) (h : swInv s) :
    swInv (swSweep s now active).1 := by
  intro r0 u0
  exact le_trans (swSweep_foldl_le _ _ _) (h r0 u0)

theorem swInv_step (s : SWState) (req : SWReq) (h : swInv s) : swInv (swStep s req).1 := by
  cases req with
  | join c r uid uname f => exact swInv_join s c r uid uname f h
  | leave c r => exact swInv_leave s c r h
  | msg c r m => exact fun r0 u0 => h r0 u0
  | shareDoc c r d => exact fun r0 u0 => h r0 u0
  | endRoom c r => exact swInv_endRoom s r h
  | ping c now => exact fun r0 u0 => h r0 u0
  | heartbeat c now hb => exact swInv_heartbeat s c now hb h
  | sweep now active => exact swInv_sweep s now active h

theorem swInv_run (reqs : List SWReq) : swInv (swRun swInit reqs) := by
  have hgen : ∀ s, swInv s → swInv (swRun s reqs) := by
    induction reqs with
    | nil => exact fun s hs => hs
    | cons a t ih => exact fun s hs => ih ((swStep s a).1) (swInv_step s a hs)
  exact hgen swInit (fun r0 u0 => Nat.le_succ 0)

/-! ## FIFO cap, rejoin, GC and frame-effect theorems -/

theorem pushCapped_foldl_drop {α : Type} (ms : List α) :
    ∀ l : List α, l.length ≤ 100 →
      ms.foldl pushCapped l = (l ++ ms).drop ((l ++ ms).length - 100) := by
  induction ms with
  | nil =>
    intro l h
    have hz : l.length - 100 = 0 := by omega
    simp [List.foldl, hz]
  | cons m rest ih =>
    intro l h
    rw [List.foldl_cons]
    by_cases hl : (l ++ [m]).length > 100
    · have hlen : l.length = 100 := by
        simp only [List.length_append, List.length_cons, List.length_nil] at hl
        omega
      have hpc : pushCapped l m = (l ++ [m]).tail := by
        simp only [pushCapped, hl, if_true]
      rw [hpc]
      have hlall : (l ++ [m]).length = 101 := by
        simp [hlen]
      have hlt : ((l ++ [m]).tail).length ≤ 100 := by
        rw [← List.drop_one, List.length_drop, hlall]
      rw [ih _ hlt, ← List.drop_one]
      have hL1 : (List.drop 1 (l ++ [m])).length = 100 := by
        rw [List.length_drop, hlall]
      have harith1 : (List.drop 1 (l ++ [m]) ++ rest).length - 100 = rest.length := by
        rw [List.length_append, hL1]
        omega
      have harith2 : (l ++ m :: rest).length - 100 = 1 + rest.length := by
        simp only [List.length_append, List.length_cons, hlen]
        omega
      rw [harith1, harith2]
      have hassoc2 : (l ++ [m]) ++ rest = l ++ m :: rest := by simp
      have h1le : (1 : Nat) ≤ (l ++ [m]).length := by
        rw [hlall]
        omega
      rw [← hassoc2, ← List.drop_drop, List.drop_append_of_le_length h1le]
    · have hle : (l ++ [m]).length ≤ 100 := by omega
      have hpc : pushCapped l m = l ++ [m] := by
        simp only [pushCapped, hl, if_false]
      rw [hpc, ih _ hle]
      have hassoc : (l ++ [m]) ++ rest = l ++ m :: rest := by simp
      rw [hassoc]

/-- C6 (amended): `pushCapped` — the append routine of the `message` handlers
of src/public/sw.js and src/api/socket.js — keeps any history that starts
within the bound at no more than 100 entries, and after any sequence of
appends the history is exactly the most recently appended entries in append
order (FIFO eviction of the oldest); the socket.io `shareDocument` path
bypasses this routine (see the counterexample). -/
theorem C6_history_cap_fifo {α : Type} (ms l : List α) (h : l.length ≤ 100) :
    (ms.foldl pushCapped l).length ≤ 100 ∧
    ms.foldl pushCapped l = (l ++ ms).drop ((l ++ ms).length - 100) := by
  have hd := pushCapped_foldl_drop ms l h
  refine ⟨?_, hd⟩
  rw [hd, List.length_drop]
  omega

/-- Witness for the amended C6: 101 appends through `pushCapped` starting from
an empty history leave exactly the last 100 entries. -/
theorem C6_history_cap_fifo_witness :
    ((List.range 101).foldl pushCapped ([] : List Nat)).length ≤ 100 ∧
    (List.range 101).foldl pushCapped ([] : List Nat)
      = (([] : List Nat) ++ List.range 101).drop
          ((([] : List Nat) ++ List.range 101).length - 100) :=
  C6_history_cap_fifo (List.range 101) [] (by decide)

theorem mapGet_eq_none_of_not_has {α : Type} (m : List (String × α)) (k : String)
    (h : mapHas m k = false) : mapGet m k = none := by
  rw [mapHas_eq_isSome] at h
  cases hg : mapGet m k with
  | none => rfl
  | some v => rw [hg] at h; cases h

/-- C5 counterexample: a `message` event for a roomId absent from the registry
makes the service worker create `ROOMS["R"] = []` (src/public/sw.js lines
310–313): room "R" then exists in the registry with zero members (no client
and no user), violating "a room exists if and only if it has at least one
member". -/
theorem C5_counterexample :
    (let s1 := (swMessage swInit "c1" "R"
        { id := "m1", userId := "u1", text := "hi", isEcho := false }).1
     mapGet s1.rooms "R" = some [] ∧ swRoomUsersOf s1.users "R" = []) := by decide

/-- C5 (amended): the member-removing operations of the service-worker core do
delete an emptied room immediately — a leaveRoom that leaves no client behind
removes the registry entry, and after a sweep every room still registered has
a nonempty client list; the "exists only if nonempty" half of the claim fails
through the message handler (see the counterexample). -/
theorem C5_empty_room_deleted (s : SWState) (c r : String) (now : Nat)
    (active : List String) :
    ((mapGetD s.rooms r []).filter (fun x => x != c) = [] →
      mapGet ((swLeave s c r).1).rooms r = none) ∧
    (∀ cs, mapGet ((swSweep s now active).1).rooms r = some cs → cs ≠ []) := by
  constructor
  · intro hemp
    by_cases hhas : mapHas s.rooms r = true
    · have hrooms : ((swLeave s c r).1).rooms = mapDelete s.rooms r := by
        simp [swLeave, hhas, hemp]
      rw [hrooms]
      exact mapGet_mapDelete_self s.rooms r
    · have hh : mapHas s.rooms r = false := by
        cases hx : mapHas s.rooms r
        · rfl
        · exact absurd hx hhas
      have hrooms : ((swLeave s c r).1).rooms = s.rooms := by
        simp [swLeave, hh]
      rw [hrooms]
      exact mapGet_eq_none_of_not_has s.rooms r hh
  · intro cs hget
    obtain ⟨k2, hk2⟩ := mapGet_filter_prop _ _ _ _ hget
    intro hnil
    rw [hnil] at hk2
    simp at hk2

/-- Witness for the amended C5: "c1" is the sole client of room "R"; its leave
removes the room, and a sweep of a one-room registry keeps only rooms with a
nonempty client list. -/
theorem C5_empty_room_deleted_witness :
    mapGet ((swLeave (swRun swInit [SWReq.join "c1" "R" "u1" "Alice" true])
        "c1" "R").1).rooms "R" = none ∧
    ["c1"] ≠ ([] : List String) :=
  ⟨(C5_empty_room_deleted (swRun swInit [SWReq.join "c1" "R" "u1" "Alice" true])
      "c1" "R" 0 []).1 (by decide),
   (C5_empty_room_deleted (swRun swInit [SWReq.join "c1" "R" "u1" "Alice" true])
      "c1" "R" 0 []).2 ["c1"] (by decide)⟩

/-- The joiner always receives the room's stored message history: when
`ROOM_MESSAGES` has an entry for the room, `previousMessages` with exactly that
entry is posted to the joining client. -/
theorem swJoin_prev_mem (s : SWState) (c r uid uname : String) (f : Bool)
    (msgs : List SWMsg) (hmsgs : mapGet s.roomMessages r = some msgs) :
    (c, SWEvent.previousMessages msgs) ∈ (swJoin s c r uid uname f).2 := by
  have hhasm : mapHas s.roomMessages r = true := by
    rw [mapHas_eq_isSome, hmsgs]; rfl
  by_cases hrb : mapHas s.rooms r = true
  · simp [swJoin, hrb, hhasm, mapGetD, hmsgs, List.mem_append]
  · have hrbf : mapHas s.rooms r = false := by
      cases hx : mapHas s.rooms r
      · rfl
      · exact absurd hx hrb
    simp [swJoin, hrbf, hhasm, mapGetD, hmsgs, List.mem_append]

/-- C1 (amended): the claim holds in the service-worker core: after any
sequence of events from the initial state, `USERS` holds at most one member
entry per `(userId, roomId)` — the joinRoom dedup and the heartbeat-rejoin
`userInRoom` guard preserve the invariant.  (In the socket.io servers it
fails: see the counterexample.) -/
theorem C1_sw_no_duplicate_membership (reqs : List SWReq) (roomId uid : String) :
    countP (swRun swInit reqs).users (memberPred roomId uid) ≤ 1 :=
  swInv_run reqs roomId uid

/-- C7 counterexample: on the socket.io servers, sole member "u1" joins room
"R", sends message m1, disconnects (which deletes the emptied room together
with its history) and rejoins with the same userId: the rejoin response is
`previousMessages []` — the history [m1] is gone, contradicting "hands back
the room's current message history (… not an empty list)". -/
theorem C7_counterexample :
    (let sA := sioRun sioInit [SIOReq.join "s1" "R" "u1" "Alice",
        SIOReq.msg "s1" { id := "m1", userId := "u1", text := "hello" }]
     ((mapGet sA.rooms "R").map (fun room => room.messages)
        = some [{ id := "m1", userId := "u1", text := "hello" }] ∧
      mapGet (sioDisconnect sA "s1").1.rooms "R" = none ∧
      (sioJoin (sioDisconnect sA "s1").1 "s2" "R" "u1" "Alice").2
        = [("s2", SIOEvent.roomUsers [{ id := "u1", name := "Alice", isCreator := true }]),
           ("s2", SIOEvent.previousMessages [])])) := by decide

/-- C7 (amended): in the service-worker core the claim holds: `ROOM_MESSAGES`
is untouched by leaves, so a rejoin after a leave hands the joiner the room's
full stored history, and the registry afterwards holds exactly one member
entry for that userId in the room.  (On the socket.io servers the history is
lost when the leaver was the last member: see the counterexample.) -/
theorem C7_sw_rejoin_history (s : SWState) (c1 c2 r uid uname : String) (f : Bool)
    (msgs : List SWMsg) (hinv : swInv s)
    (hmsgs : mapGet s.roomMessages r = some msgs) :
    (c2, SWEvent.previousMessages msgs) ∈ (swJoin ((swLeave s c1 r).1) c2 r uid uname f).2 ∧
    countP ((swJoin ((swLeave s c1 r).1) c2 r uid uname f).1.users) (memberPred r uid) = 1 := by
  have hleave : ((swLeave s c1 r).1).roomMessages = s.roomMessages := rfl
  constructor
  · exact swJoin_prev_mem _ c2 r uid uname f msgs (by rw [hleave, hmsgs])
  · have hle : countP ((swJoin ((swLeave s c1 r).1) c2 r uid uname f).1.users)
        (memberPred r uid) ≤ 1 :=
      swInv_join _ c2 r uid uname f (swInv_leave s c1 r hinv) r uid
    have hge : 1 ≤ countP ((swJoin ((swLeave s c1 r).1) c2 r uid uname f).1.users)
        (memberPred r uid) := by
      rw [swJoin_users_eq]
      refine countP_pos_of_mem _ _
        (c2, { userId := uid, name := uname, roomId := r, isCreator := f })
        (mem_mapSet_self _ _ _) ?_
      simp [memberPred]
    omega

/-- Witness for the amended C7: "u1" joins "R" via client "c1", sends "m1",
leaves, and rejoins via client "c2": the rejoin response carries ["m1"] and
"u1" is a member exactly once. -/
theorem C7_sw_rejoin_history_witness :
    ("c2", SWEvent.previousMessages [{ id := "m1", userId := "u1", text := "hi", isEcho := false }])
      ∈ (swJoin ((swLeave (swRun swInit [SWReq.join "c1" "R" "u1" "Alice" true,
            SWReq.msg "c1" "R" { id := "m1", userId := "u1", text := "hi", isEcho := false }])
          "c1" "R").1) "c2" "R" "u1" "Alice" true).2 ∧
    countP ((swJoin ((swLeave (swRun swInit [SWReq.join "c1" "R" "u1" "Alice" true,
            SWReq.msg "c1" "R" { id := "m1", userId := "u1", text := "hi", isEcho := false }])
          "c1" "R").1) "c2" "R" "u1" "Alice" true).1.users) (memberPred "R" "u1") = 1 :=
  C7_sw_rejoin_history _ "c1" "c2" "R" "u1" "Alice" true _
    (swInv_run [SWReq.join "c1" "R" "u1" "Alice" true,
        SWReq.msg "c1" "R" { id := "m1", userId := "u1", text := "hi", isEcho := false }])
    (by decide)

/-- User entry of `room.users` (an array of objects keyed by socket id) in the
standalone server variants src/unnamed/part_014 (server.js) and
src/unnamed/part_017 (the `joinedAt` timestamp is never read back and is not
modelled). -/
structure SrvUser where
  id : String
  username : String
deriving Repr, DecidableEq

/-- Message object built by `send_message` of src/unnamed/part_014 lines
142–148 (the `time` wall-clock field is never read back; the generated id is
taken as given). -/
structure SrvMsg where
  id : String
  message : String
  username : String
  socketId : String
deriving Repr, DecidableEq

/-- One entry of the `rooms` map of src/unnamed/part_014: `{ users: [],
messages: [], createdAt }` (`createdAt` is never read back). -/
structure SrvRoom where
  users : List SrvUser
  messages : List SrvMsg
deriving Repr, DecidableEq

/-- Events the standalone server's `send_message` handler emits. -/
inductive SrvEvent where
  | error (message : String)
  | receiveMessage (m : SrvMsg)
deriving Repr, DecidableEq

/-- Handler `socket.on('send_message', ...)` of src/unnamed/part_014 lines
120–165 (src/unnamed/part_017 lines 71–108 carry the same logic): reject
missing fields with an `error` to the sender; reject a room absent from the
registry with `error {message: 'Room not found'}` to the sender; reject a
sender with no entry in `room.users`; otherwise push the message (history
capped to the last 1000 by `slice(-1000)`) and emit `receive_message` to the
room.  In this server a socket is in the socket.io room exactly while it has
an entry in `room.users` (`join_room` adds both and removes stale ones, the
leave/disconnect paths remove both), so `io.to(roomId)` is modelled as the
socket ids of `room.users`. -/
def srvSendMessage (rooms : List (String × SrvRoom))
    (sid roomId message username newId : String) :
    List (String × SrvRoom) × List (String × SrvEvent) :=
  if roomId == "" || message == "" || username == "" then
    (rooms, [(sid, SrvEvent.error "Room ID, message, and username are required")])
  else
    match mapGet rooms roomId with
    | none => (rooms, [(sid, SrvEvent.error "Room not found")])
    | some room =>
      if !(room.users.any (fun u => u.id == sid)) then
        (rooms, [(sid, SrvEvent.error "You are not in this room")])
      else
        let newMessage : SrvMsg := { id := newId, message := message.trim,
                                     username := username.trim, socketId := sid }
        let msgs1 := room.messages ++ [newMessage]
        let msgs2 := if msgs1.length > 1000 then msgs1.drop (msgs1.length - 1000) else msgs1
        let room1 : SrvRoom := { room with messages := msgs2 }
        (mapSet rooms roomId room1,
         room1.users.map (fun u => (u.id, SrvEvent.receiveMessage newMessage)))

/-- C9 (amended): how a message to a room absent from the registry is handled
depends on the variant: the socket.io `message` handler the claim cites
silently does nothing (state unchanged, no event emitted, so all other rooms
are untouched); the service-worker core instead CREATES the room entry (with
no members) and stores the message; only the standalone server variants
(src/unnamed/part_014, part_017) report the failure as the claim demands,
emitting `error "Room not found"` to the sender, non-fatally and with the
registry unchanged. -/
theorem C9_missing_room_append (sio : SIOState) (sid r : String) (rest : List String)
    (m : SIOMsg) (sw : SWState) (c r2 : String) (m2 : SWMsg)
    (rooms : List (String × SrvRoom)) (sid3 r3 message username newId : String)
    (hsr : mapGetD sio.socketRooms sid [] = r :: rest)
    (hnone : mapGet sio.rooms r = none)
    (hswrooms : mapGet sw.rooms r2 = none)
    (hswmsgs : mapGet sw.roomMessages r2 = none)
    (hr3 : r3 ≠ "") (hmessage : message ≠ "") (husername : username ≠ "")
    (hsrv : mapGet rooms r3 = none) :
    sioMessage sio sid m = (sio, []) ∧
    mapGet ((swMessage sw c r2 m2).1).rooms r2 = some [] ∧
    mapGet ((swMessage sw c r2 m2).1).roomMessages r2 = some [m2] ∧
    srvSendMessage rooms sid3 r3 message username newId
      = (rooms, [(sid3, SrvEvent.error "Room not found")]) := by
  refine ⟨?_, ?_, ?_, ?_⟩
  · simp only [sioMessage, hsr, hnone]
  · have hh : mapHas sw.rooms r2 = false := by
      rw [mapHas_eq_isSome, hswrooms]; rfl
    simp only [swMessage, hh, Bool.false_eq_true, if_false]
    exact mapGet_mapSet_self sw.rooms r2 []
  · have hh2 : mapHas sw.roomMessages r2 = false := by
      rw [mapHas_eq_isSome, hswmsgs]; rfl
    simp only [swMessage, hh2, Bool.false_eq_true, if_false, mapGetD, mapGet_mapSet_self,
      Option.getD_some]
    simp [pushCapped]
  · have h1 : (r3 == "") = false := by
      simp [beq_eq_false_iff_ne, hr3]
    have h2 : (message == "") = false := by
      simp [beq_eq_false_iff_ne, hmessage]
    have h3 : (username == "") = false := by
      simp [beq_eq_false_iff_ne, husername]
    simp only [srvSendMessage, h1, h2, h3, Bool.or_self, Bool.false_or,
      Bool.false_eq_true, if_false, hsrv]

/-- Witness for the amended C9: the late message of the C9 counterexample run
is silently dropped by the socket.io server; `swMessage` on the empty
service-worker state creates memberless room "R" holding just the message; and
the standalone server reports `Room not found` to sender "s1" on an empty
registry. -/
theorem C9_missing_room_append_witness :
    (sioMessage (sioRun sioInit [SIOReq.join "s1" "R" "u1" "Alice", SIOReq.endRoom "s1" "R"])
        "s1" { id := "m9", userId := "u1", text := "late" }
      = (sioRun sioInit [SIOReq.join "s1" "R" "u1" "Alice", SIOReq.endRoom "s1" "R"], [])) ∧
    mapGet ((swMessage swInit "c1" "R"
        { id := "m1", userId := "u1", text := "hi", isEcho := false }).1).rooms "R"
      = some [] ∧
    mapGet ((swMessage swInit "c1" "R"
        { id := "m1", userId := "u1", text := "hi", isEcho := false }).1).roomMessages "R"
      = some [{ id := "m1", userId := "u1", text := "hi", isEcho := false }] ∧
    srvSendMessage [] "s1" "R" "hi" "Alice" "m1"
      = ([], [("s1", SrvEvent.error "Room not found")]) :=
  C9_missing_room_append _ "s1" "R" [] _ swInit "c1" "R"
    { id := "m1", userId := "u1", text := "hi", isEcho := false }
    [] "s1" "R" "hi" "Alice" "m1"
    (by decide) (by decide) rfl rfl (by decide) (by decide) (by decide) rfl

/-- C10: the service-worker `endRoom` deletes the room's client list and the
room's `USERS` entries but leaves `ROOM_MESSAGES` unchanged; a later `joinRoom`
with the same roomId therefore hands the joiner the ended room's old messages
as `previousMessages` instead of an empty history. -/
theorem C10_endRoom_keeps_messages (s : SWState) (c r uid uname : String) (f : Bool)
    (msgs : List SWMsg) (hmsgs : mapGet s.roomMessages r = some msgs) :
    (swEndRoom s r).1.roomMessages = s.roomMessages ∧
    (c, SWEvent.previousMessages msgs) ∈ (swJoin (swEndRoom s r).1 c r uid uname f).2 := by
  have hrm : (swEndRoom s r).1.roomMessages = s.roomMessages := by
    by_cases hhas : mapHas s.rooms r = true
    · simp [swEndRoom, hhas]
    · have hh : mapHas s.rooms r = false := by
        cases hx : mapHas s.rooms r
        · rfl
        · exact absurd hx hhas
      simp [swEndRoom, hh]
  exact ⟨hrm, swJoin_prev_mem _ c r uid uname f msgs (by rw [hrm, hmsgs])⟩

/-- Witness for C10: room "R" accumulates "m1", is ended, and a later joiner
"c2" still receives ["m1"] as `previousMessages`. -/
theorem C10_endRoom_keeps_messages_witness :
    (swEndRoom (swRun swInit [SWReq.join "c1" "R" "u1" "Alice" true,
        SWReq.msg "c1" "R" { id := "m1", userId := "u1", text := "hi", isEcho := false }])
      "R").1.roomMessages
      = (swRun swInit [SWReq.join "c1" "R" "u1" "Alice" true,
          SWReq.msg "c1" "R" { id := "m1", userId := "u1", text := "hi", isEcho := false }]).roomMessages ∧
    ("c2", SWEvent.previousMessages [{ id := "m1", userId := "u1", text := "hi", isEcho := false }])
      ∈ (swJoin (swEndRoom (swRun swInit [SWReq.join "c1" "R" "u1" "Alice" true,
          SWReq.msg "c1" "R" { id := "m1", userId := "u1", text := "hi", isEcho := false }])
        "R").1 "c2" "R" "u2" "Bob" false).2 :=
  C10_endRoom_keeps_messages _ "c2" "R" "u2" "Bob" false _ (by decide)
